import Mathlib

/-!
Verification of the swt-serverless-api repository: a shallow embedding of
the CLI Bruno-file generator (`src/package/src/cli/bruno.ts`,
`src/package/src/cli/utils/common-utils.ts`, the generator entrypoint),
the bearer-auth middleware factory, and — modelled from the specification
where the `bootstraper` sources are not part of the snapshot — the route
compiler, introspection builder and parameter binder.
-/

namespace SWT

/-- The `DataType` union of `bruno.ts`:
`'string' | 'number' | 'boolean' | 'array' | 'object'`. -/
inductive DataType where
  | string
  | number
  | boolean
  | array
  | object
deriving DecidableEq, Repr

/-- The `KeyTypeValue` record of `bruno.ts`: a flattened schema field
`{ key; type; value }` (called SchemaField in the specification). -/
structure KeyTypeValue where
  key : String
  type : DataType
  value : String
deriving DecidableEq, Repr

/-- Function `generateDummyValue` from `bruno.ts`, transcribed case by case; the
`default` switch arm covers the `object` tag. -/
def generateDummyValue : DataType → String
  | .string => "\"lorem ipsum\""
  | .number => "248"
  | .boolean => "true"
  | .array => "[1, 2, 3]"
  | .object => "object \x7b\x7d"

/-- Modelled from the spec: the `SWTZodSchema` type lives in the missing
`bootstraper` sources. A schema value carries an optional declared `name`,
a root `type` tag, and (for records) named sub-schemas, which is exactly
the shape `mapSchemas` reads (`schema.name`, `schema.type`,
`schema.properties`, `properties[key].type`). -/
inductive SWTZodSchema where
  | node (name : Option String) (type : DataType)
      (properties : List (String × SWTZodSchema))

def SWTZodSchema.type : SWTZodSchema → DataType
  | .node _ t _ => t

def SWTZodSchema.name : SWTZodSchema → Option String
  | .node n _ _ => n

def SWTZodSchema.properties : SWTZodSchema → List (String × SWTZodSchema)
  | .node _ _ ps => ps

/-- A schema data-type tag as the JSON word it serializes to. -/
def dataTypeName : DataType → String
  | .string => "string"
  | .number => "number"
  | .boolean => "boolean"
  | .array => "array"
  | .object => "object"

/-- Modelled from the spec: `JSON.stringify` applied to a schema value
(the `value: JSON.stringify(prop)` calls in `mapSchemas`); the schema's
own JSON layout comes from the missing `bootstraper` sources, so any
injective rendering of the node suffices for the claims below. -/
def stringifySchema : SWTZodSchema → String
  | .node n t ps =>
    "\x7b"
      ++ (match n with
          | some s => "\"name\":\"" ++ s ++ "\","
          | none => "")
      ++ "\"type\":\"" ++ dataTypeName t ++ "\""
      ++ (if ps.isEmpty then ""
          else
            ",\"properties\":\x7b"
              ++ String.intercalate ","
                  (ps.attach.map (fun p =>
                    "\"" ++ p.1.1 ++ "\":" ++ stringifySchema p.1.2))
              ++ "\x7d")
      ++ "\x7d"
termination_by s => sizeOf s
decreasing_by
  obtain ⟨⟨a, b⟩, hm⟩ := p
  have h1 := List.sizeOf_lt_of_mem hm
  simp at h1 ⊢
  omega

/-- JavaScript's `sch.name || 'unknown'`: `undefined` and the empty string
are both falsy. -/
def nameOrUnknown : Option String → String
  | some s => if s = "" then "unknown" else s
  | none => "unknown"

/-- Function `mapSchemas` from `common-utils.ts`: the per-property expansion fires
only when the list holds exactly one schema whose root type is `'object'`;
every other list falls through to the per-schema loop. -/
def mapSchemas (schema : List SWTZodSchema) : List KeyTypeValue :=
  match schema with
  | [s] =>
    if s.type = DataType.object then
      s.properties.map (fun p =>
        { key := p.1, type := p.2.type, value := stringifySchema p.2 })
    else
      [{ key := nameOrUnknown s.name, type := s.type,
         value := stringifySchema s }]
  | l =>
    l.map (fun sch =>
      { key := nameOrUnknown sch.name, type := sch.type,
        value := stringifySchema sch })

/-- The `HttpMethod` union of the `bootstraper` sources (spec §3:
`enum{GET,POST,PUT,PATCH,DELETE,OPTIONS,ALL}`). -/
inductive HttpMethod where
  | get
  | post
  | put
  | patch
  | delete
  | options
  | all
deriving DecidableEq, Repr

/-- Rendering of an `HttpMethod` into the text interpolated by
`createRequestString`. -/
def HttpMethod.render : HttpMethod → String
  | .get => "get"
  | .post => "post"
  | .put => "put"
  | .patch => "patch"
  | .delete => "delete"
  | .options => "options"
  | .all => "all"

/-- The `BrunoMeta` record of `bruno.ts` (the `type` field is always
`'http'` as built by the generator entrypoint). -/
structure BrunoMeta where
  name : String
  type : String
  seq : Nat
deriving DecidableEq, Repr

/-- The `BrunoRequest` constructor fields of `bruno.ts`. The generator
entrypoint always passes (possibly empty) arrays for the four optional
schema-field lists, so they are plain lists here; the
`this?.xs && this.xs.length > 0` guards become emptiness checks. -/
structure BrunoRequest where
  meta : BrunoMeta
  baseURL : String
  httpMethod : HttpMethod
  url : String
  headers : List KeyTypeValue
  queryParams : List KeyTypeValue
  pathParams : List KeyTypeValue
  bodyParams : List KeyTypeValue

/-- The call `name.replace(/\//g, '_')`: the pattern is the single character `/`
and the regex is global, so the replacement is the per-character map
sending `/` to `_`. -/
def replaceSlashes (s : String) : String :=
  String.mk (s.toList.map (fun c => if c = '/' then '_' else c))

/-- Method `BrunoRequest.getFilename`: every `/` in the meta name is replaced by
`_` and `.bru` is appended. -/
def BrunoRequest.getFilename (b : BrunoRequest) : String :=
  replaceSlashes b.meta.name ++ ".bru"

/-- Method `BrunoRequest.createMetaString`, transcribed from the template
literal. -/
def BrunoRequest.createMetaString (b : BrunoRequest) : String :=
  "meta \x7b\n  name: \"" ++ b.meta.name ++ "\"\n  type: \"" ++ b.meta.type
    ++ "\"\n  seq: " ++ toString b.meta.seq ++ "\n\x7d"

/-- One `  key: dummy` line of the headers / params:query / params:path
blocks. -/
def kvLine (kv : KeyTypeValue) : String :=
  "  " ++ kv.key ++ ": " ++ generateDummyValue kv.type ++ "\n"

/-- The `headers { ... }` block of `createRequestString` (empty when the
list is empty). -/
def headersBlock (l : List KeyTypeValue) : String :=
  if l.length > 0 then
    "headers \x7b\n" ++ String.join (l.map kvLine) ++ "\x7d\n"
  else ""

/-- The `params:query { ... }` block of `createRequestString`. -/
def queryParamsBlock (l : List KeyTypeValue) : String :=
  if l.length > 0 then
    "params:query \x7b\n" ++ String.join (l.map kvLine) ++ "\x7d\n"
  else ""

/-- The `params:path { ... }` block of `createRequestString`. -/
def pathParamsBlock (l : List KeyTypeValue) : String :=
  if l.length > 0 then
    "params:path \x7b\n" ++ String.join (l.map kvLine) ++ "\x7d\n"
  else ""

/-- Lower-case hex digit (for `\u....` escapes). -/
def hexDigitLower (n : Nat) : Char :=
  match n with
  | 0 => '0' | 1 => '1' | 2 => '2' | 3 => '3' | 4 => '4'
  | 5 => '5' | 6 => '6' | 7 => '7' | 8 => '8' | 9 => '9'
  | 10 => 'a' | 11 => 'b' | 12 => 'c' | 13 => 'd' | 14 => 'e'
  | _ => 'f'

/-- Upper-case hex digit (for `%HH` percent-encoding). -/
def hexDigitUpper (n : Nat) : Char :=
  match n with
  | 0 => '0' | 1 => '1' | 2 => '2' | 3 => '3' | 4 => '4'
  | 5 => '5' | 6 => '6' | 7 => '7' | 8 => '8' | 9 => '9'
  | 10 => 'A' | 11 => 'B' | 12 => 'C' | 13 => 'D' | 14 => 'E'
  | _ => 'F'

/-- Four lower-case hex digits. -/
def hex4 (n : Nat) : String :=
  String.mk [hexDigitLower (n / 4096 % 16), hexDigitLower (n / 256 % 16),
             hexDigitLower (n / 16 % 16), hexDigitLower (n % 16)]

/-- The `JSON.stringify` escaping of one character inside a JSON string
token: `"`, `\`, the short control escapes, `\u....` for the remaining
control characters, the character itself otherwise. -/
def jsonEscapeChar (c : Char) : String :=
  if c = '"' then "\\\""
  else if c = '\\' then "\\\\"
  else if c = '\n' then "\\n"
  else if c = '\r' then "\\r"
  else if c = '\t' then "\\t"
  else if c.toNat = 8 then "\\b"
  else if c.toNat = 12 then "\\f"
  else if c.toNat < 32 then "\\u" ++ hex4 c.toNat
  else String.singleton c

/-- The `JSON.stringify` escaping of a whole string. -/
def jsonEscape (s : String) : String :=
  String.join (s.toList.map jsonEscapeChar)

/-- The call `JSON.stringify(obj, null, 2)` for a flat object whose values are all
strings: `{}` when empty, otherwise one two-space-indented
`"key": "value"` line per property joined by `,\n`. -/
def jsonStringify2 (l : List (String × String)) : String :=
  if l.isEmpty then "\x7b\x7d"
  else
    "\x7b\n"
      ++ String.intercalate ",\n"
          (l.map (fun p => "  \"" ++ jsonEscape p.1 ++ "\": \""
            ++ jsonEscape p.2 ++ "\""))
      ++ "\n\x7d"

/-- JavaScript property assignment `obj[k] = v` on an object modelled as
an association list: an existing key keeps its (first-insertion) position
and takes the new value, a new key is appended. -/
def objAssign (l : List (String × String)) (k v : String) :
    List (String × String) :=
  if l.any (fun p => p.1 = k) then
    l.map (fun p => if p.1 = k then (k, v) else p)
  else l ++ [(k, v)]

/-- The `jsonObject` built by the `for (const param of bodyParams)` loop:
each field's dummy value (a string) stored under the field's key. -/
def buildJsonObject (kvs : List KeyTypeValue) : List (String × String) :=
  kvs.foldl (fun acc kv => objAssign acc kv.key (generateDummyValue kv.type)) []

/-- The `body:json { ... }` block of `createRequestString`: the
`JSON.stringify(jsonObject, null, 2)` rendering wrapped in the block
braces (empty when there are no body fields). -/
def bodyParamsBlock (kvs : List KeyTypeValue) : String :=
  if kvs.length > 0 then
    "body:json \x7b\n" ++ jsonStringify2 (buildJsonObject kvs) ++ "\n\x7d\n"
  else ""

/-- The `encodeURIComponent` unreserved characters: ASCII alphanumerics and
`- _ . ! ~ * ' ( )`. -/
def isUnreservedURIChar (c : Char) : Bool :=
  (c.isAlpha || c.isDigit) || c = '-' || c = '_' || c = '.' || c = '!'
    || c = '~' || c = '*' || c.toNat = 39 || c = '(' || c = ')'

/-- UTF-8 bytes of a code point. -/
def utf8Bytes (n : Nat) : List Nat :=
  if n < 128 then [n]
  else if n < 2048 then [192 + n / 64, 128 + n % 64]
  else if n < 65536 then
    [224 + n / 4096, 128 + n / 64 % 64, 128 + n % 64]
  else
    [240 + n / 262144, 128 + n / 4096 % 64, 128 + n / 64 % 64, 128 + n % 64]

/-- A `%HH` escape with upper-case hex, as produced by `encodeURIComponent`. -/
def percentByte (b : Nat) : String :=
  String.mk ['%', hexDigitUpper (b / 16 % 16), hexDigitUpper (b % 16)]

/-- JavaScript's `encodeURIComponent`: unreserved characters pass
through, everything else is percent-encoded byte by byte. -/
def encodeURIComponent (s : String) : String :=
  String.join (s.toList.map (fun c =>
    if isUnreservedURIChar c then String.singleton c
    else String.join ((utf8Bytes c.toNat).map percentByte)))

/-- The `queryString` expression of `createRequestString`:
`key=encodeURIComponent(dummy)` pairs joined by `&`. -/
def brunoQueryString (l : List KeyTypeValue) : String :=
  String.intercalate "&"
    (l.map (fun p => p.key ++ "=" ++ encodeURIComponent (generateDummyValue p.type)))

/-- Method `BrunoRequest.createRequestString`, transcribed from the template
literal (note the line holding two spaces after the url block). -/
def BrunoRequest.createRequestString (b : BrunoRequest) : String :=
  b.httpMethod.render ++ " \x7b\n  url: " ++ b.baseURL ++ b.url
    ++ (if b.queryParams.length > 0 then "?" ++ brunoQueryString b.queryParams else "")
    ++ "\n  body: json\n  auth: inherit\n\x7d\n  \n"
    ++ headersBlock b.headers ++ "\n"
    ++ queryParamsBlock b.queryParams ++ "\n"
    ++ pathParamsBlock b.pathParams ++ "\n"
    ++ bodyParamsBlock b.bodyParams ++ "\n"

/-- Method `BrunoRequest.toString`: meta block, blank line, request blocks. -/
def BrunoRequest.toString (b : BrunoRequest) : String :=
  b.createMetaString ++ "\n\n" ++ b.createRequestString

/-- The `schema` object carried by an `IntrospectionObject`
(`{headers?, query?, params?, body?}`); the generator entrypoint reads
each source with `obj.schema?.xs || []`, so an absent source is the empty
list. -/
structure SchemaBlock where
  headers : List SWTZodSchema
  query : List SWTZodSchema
  params : List SWTZodSchema
  body : List SWTZodSchema

/-- The `IntrospectionObject` of the introspection document:
`{name, method, path, schema}`. -/
structure IntrospectionObject where
  name : String
  method : HttpMethod
  path : String
  schema : SchemaBlock

/-- The `BrunoRequest` built for one introspection object by the
generator entrypoint (`seq` is the 1-based position). -/
def mkBrunoRequest (baseURL : String) (obj : IntrospectionObject) (seq : Nat) :
    BrunoRequest :=
  { meta := { name := obj.name, type := "http", seq := seq }
    baseURL := baseURL
    httpMethod := obj.method
    url := obj.path
    headers := mapSchemas obj.schema.headers
    queryParams := mapSchemas obj.schema.query
    pathParams := mapSchemas obj.schema.params
    bodyParams := mapSchemas obj.schema.body }

/-- The `introspectionObjects.forEach` loop of the generator entrypoint
as the sequence of `writeFileSync` calls it performs: one
(filename, contents) pair per introspection object, in order. -/
def generateWrites (baseURL : String) (objs : List IntrospectionObject) :
    List (String × String) :=
  objs.enum.map (fun p =>
    ((mkBrunoRequest baseURL p.2 (p.1 + 1)).getFilename,
     (mkBrunoRequest baseURL p.2 (p.1 + 1)).toString))

/-- The directory contents after a sequence of `writeFileSync` calls:
a later write to the same filename overwrites the earlier one. -/
def applyWrites (ws : List (String × String)) : List (String × String) :=
  ws.foldl (fun fs w => objAssign fs w.1 w.2) []

/-- An empty schema object (`obj.schema?.xs` all absent). -/
def emptySchemaBlock : SchemaBlock :=
  { headers := [], query := [], params := [], body := [] }

/-- Modelled from the spec: a JSON value, the shape of request bodies and
of the raw values handed to the schema validator (the `bootstraper`
request-handling sources are not in the snapshot). -/
inductive JValue where
  | str (s : String)
  | num (n : Int)
  | boolVal (b : Bool)
  | obj (fields : List (String × JValue))
  | arr (elems : List JValue)
  | nullVal

/-- Modelled from the spec: a parameter source, spec §3 `ParamBinding.source`
`enum{Body, Query, Param, Header, QuerySingle, ParamSingle, HeaderSingle}`. -/
inductive BindSource where
  | body
  | query
  | param
  | header
  | querySingle
  | paramSingle
  | headerSingle
deriving DecidableEq, Repr

/-- Modelled from the spec: the external schema-validator reference
(`validate(schema, raw) -> Result`); primitive-kind checks stand in for
the out-of-scope validation library. -/
inductive VSchema where
  | vString
  | vNumber
  | vBoolean
deriving DecidableEq, Repr

/-- Modelled from the spec: the external validator contract — the parsed
value on success, `none` on a validation failure. -/
def validate : VSchema → JValue → Option JValue
  | .vString, .str s => some (.str s)
  | .vNumber, .num n => some (.num n)
  | .vBoolean, .boolVal b => some (.boolVal b)
  | _, _ => none

/-- Modelled from the spec: `ParamBinding`
`{argIndex, source, name?, schema?}` (spec §3). -/
structure ParamBinding where
  argIndex : Nat
  source : BindSource
  name : Option String
  schema : Option VSchema

/-- Modelled from the spec: the inbound request as the binder sees it —
parsed body plus the query/path-param/header string mappings. -/
structure Request where
  body : JValue
  query : List (String × String)
  params : List (String × String)
  headers : List (String × String)

/-- A single named value from a string mapping (`null` when absent). -/
def lookupStr (l : List (String × String)) (k : String) : JValue :=
  match l.lookup k with
  | some v => .str v
  | none => .nullVal

/-- Modelled from the spec: step 1 of the binder algorithm (§4.2) — raw
extraction per source: `Body` the parsed body, the plain variants the
entire mapping as an object, the `Single` variants the one named value. -/
def extractRaw (b : ParamBinding) (req : Request) : JValue :=
  match b.source with
  | .body => req.body
  | .query => .obj (req.query.map (fun p => (p.1, JValue.str p.2)))
  | .param => .obj (req.params.map (fun p => (p.1, JValue.str p.2)))
  | .header => .obj (req.headers.map (fun p => (p.1, JValue.str p.2)))
  | .querySingle => lookupStr req.query (b.name.getD "")
  | .paramSingle => lookupStr req.params (b.name.getD "")
  | .headerSingle => lookupStr req.headers (b.name.getD "")

/-- The `location` carried by a validation failure, per source. -/
def locationName : BindSource → String
  | .body => "body"
  | .query | .querySingle => "query"
  | .param | .paramSingle => "param"
  | .header | .headerSingle => "header"

/-- Modelled from the spec: `ValidationError{location, name?, issues}`
(§7). -/
structure ValidationError where
  location : String
  name : Option String
  issues : String
deriving DecidableEq, Repr

/-- Modelled from the spec: steps 1–2 of the binder algorithm for one
binding — extract the raw value, pass it through the validator when a
schema is present, fail with a `ValidationError` on a validation
failure. -/
def bindOne (b : ParamBinding) (req : Request) : Except ValidationError JValue :=
  let raw := extractRaw b req
  match b.schema with
  | none => .ok raw
  | some s =>
    match validate s raw with
    | some v => .ok v
    | none =>
      .error { location := locationName b.source, name := b.name,
               issues := "invalid input" }

/-- The binder's ascending-`argIndex` processing order (§4.2: "per binding
in ascending argIndex order"), as a stable insertion sort. -/
def sortBindings (l : List ParamBinding) : List ParamBinding :=
  List.insertionSort (fun a b => a.argIndex ≤ b.argIndex) l

/-- Modelled from the spec: the binder's loop over the bindings in
processing order — the first failure aborts the whole binding pass,
otherwise each parsed value lands at its `argIndex`. -/
def bindAll : List ParamBinding → Request → Except ValidationError (List (Nat × JValue))
  | [], _ => .ok []
  | b :: rest, req =>
    match bindOne b req with
    | .error e => .error e
    | .ok v =>
      match bindAll rest req with
      | .error e => .error e
      | .ok tail => .ok ((b.argIndex, v) :: tail)

/-- The first binding failure in a binding list, in list order. -/
def firstFailure (bs : List ParamBinding) (req : Request) :
    Option ValidationError :=
  match bs with
  | [] => none
  | b :: rest =>
    match bindOne b req with
    | .error e => some e
    | .ok _ => firstFailure rest req

/-- Outcome of one request through the validation middleware: either the
structured validation-error response, or the handler's reply. -/
inductive RequestOutcome where
  | validationFailure (e : ValidationError)
  | success (v : JValue)

/-- Modelled from the spec: the synthesized validation middleware plus
handler (§4.3(d)–(e)): bind every parameter in ascending `argIndex`
order; on any failure short-circuit into the validation-error response
without invoking the handler, otherwise call the handler on the bound
argument list. -/
def runValidatedHandler (bindings : List ParamBinding) (req : Request)
    (handler : List (Nat × JValue) → JValue) : RequestOutcome :=
  match bindAll (sortBindings bindings) req with
  | .error e => .validationFailure e
  | .ok args => .success (handler args)

/-- Modelled from the spec: `MethodDescriptor` (§3) restricted to the
fields the route compiler and introspection builder read. -/
structure MethodDescriptor where
  methodName : String
  httpMethod : HttpMethod
  path : String
  statusCode : Option Nat
  paramBindings : List ParamBinding
  schema : SchemaBlock

/-- Modelled from the spec: `ControllerDescriptor` (§3) — base path plus
the ordered registered methods. -/
structure ControllerDescriptor where
  basePath : String
  methods : List MethodDescriptor

/-- Split a character list at a separator character. -/
def splitCharAux (sep : Char) : List Char → List (List Char)
  | [] => [[]]
  | c :: cs =>
    let r := splitCharAux sep cs
    if c = sep then [] :: r
    else
      match r with
      | [] => [[c]]
      | g :: gs => (c :: g) :: gs

/-- Split a string at a separator character. -/
def splitChar (sep : Char) (s : String) : List String :=
  (splitCharAux sep s.toList).map String.mk

/-- The non-empty path segments of one path fragment. -/
def pathSegments (s : String) : List String :=
  (splitChar '/' s).filter (fun seg => seg ≠ "")

/-- Modelled from the spec: path resolution (§4.3) —
`normalize(join(applicationBase, controllerBasePath, methodPath))`:
duplicate separators collapse, empty segments drop, exactly one leading
separator. -/
def fullPath (base controllerBase methodPath : String) : String :=
  "/" ++ String.intercalate "/"
    (pathSegments base ++ pathSegments controllerBase ++ pathSegments methodPath)

/-- A compiled `(httpMethod, fullPath)` registration key (§4.3). -/
structure CompiledRoute where
  httpMethod : HttpMethod
  fullPath : String
deriving DecidableEq, Repr

/-- Modelled from the spec: the route compiler's walk — controllers in
registration order, methods in registration order, each compiled to its
`(httpMethod, fullPath)` pair. -/
def compiledRoutes (base : String) (reg : List ControllerDescriptor) :
    List CompiledRoute :=
  reg.flatMap (fun c =>
    c.methods.map (fun m =>
      { httpMethod := m.httpMethod
        fullPath := fullPath base c.basePath m.path }))

/-- Modelled from the spec: the introspection builder's walk over the
registry (§4.4), returning both the emitted objects and the registry as
it stands after the walk (the builder only reads it, which the theorems
make explicit). Controllers and methods are visited in the same
registration order the route compiler uses, and `path` is computed by the
same `fullPath`. -/
def introControllers (base : String) :
    List ControllerDescriptor → (List IntrospectionObject × List ControllerDescriptor)
  | [] => ([], [])
  | c :: rest =>
    let objs := c.methods.map (fun m =>
      { name := m.methodName
        method := m.httpMethod
        path := fullPath base c.basePath m.path
        schema := m.schema : IntrospectionObject })
    let pr := introControllers base rest
    (objs ++ pr.1, c :: pr.2)

/-- Modelled from the spec: `buildIntrospection(registry)` (§4.4). -/
def buildIntrospection (base : String) (reg : List ControllerDescriptor) :
    List IntrospectionObject :=
  (introControllers base reg).1

/-- Modelled from the spec: the build-time error taxonomy entries that
prevent the application from becoming ready (§7). -/
inductive BuildError where
  | duplicateRegistration
  | routeConflict
deriving DecidableEq, Repr

/-- First compiled route that also occurs later in the list, if any. -/
def findConflict : List CompiledRoute → Option CompiledRoute
  | [] => none
  | r :: rs => if r ∈ rs then some r else findConflict rs

/-- The dispatchable application produced by a successful build: every
compiled route registered, none dropped or merged. -/
structure HonoApp where
  routes : List CompiledRoute
deriving DecidableEq, Repr

/-- Modelled from the spec: the application assembler's build step
(`buildHonoApp`-equivalent, §4.3/§4.5) — compile every registered method
and fail with `RouteConflict` before accepting any traffic when two
methods compile to the same `(httpMethod, fullPath)` pair. -/
def buildHonoApp (base : String) (reg : List ControllerDescriptor) :
    Except BuildError HonoApp :=
  match findConflict (compiledRoutes base reg) with
  | some _ => .error .routeConflict
  | none => .ok { routes := compiledRoutes base reg }

/-- The request context as the bearer-auth middleware sees it: the
env mapping supplying secrets by name, and the request's Authorization
header. -/
structure HonoContext where
  env : String → String
  authHeader : Option String

/-- The options record passed to hono's `bearerAuth`. -/
structure BearerAuthOptions where
  token : String
  invalidTokenMessage : JValue

/-- What a middleware invocation does with the request: fall through to
`next`, or reply unauthorized with the configured message. -/
inductive MWResult where
  | passed
  | unauthorized (msg : JValue)

/-- Modelled from the spec: hono's `bearerAuth` (an external
collaborator) — accept exactly a `Bearer <token>` Authorization header
for the configured token, reply with the configured invalid-token
message otherwise. -/
def bearerAuth (opts : BearerAuthOptions) : HonoContext → MWResult :=
  fun c =>
    if c.authHeader = some ("Bearer " ++ opts.token) then .passed
    else .unauthorized opts.invalidTokenMessage

/-- Function `createBearerAuthMiddleware` from the middleware source: at each
invocation read `c.env[bearerTokenEnvName]` and hand it, unmodified, to
`bearerAuth` together with the `{error: 'Unauthorized'}` message. -/
def createBearerAuthMiddleware (bearerTokenEnvName : String) :
    HonoContext → MWResult :=
  fun c =>
    let apiKey := c.env bearerTokenEnvName
    bearerAuth
      { token := apiKey
        invalidTokenMessage := JValue.obj [("error", JValue.str "Unauthorized")] }
      c

/-- A schema value used by several concrete checks below: a record
`{a: string}` with no declared name. -/
def exObjSchema : SWTZodSchema :=
  SWTZodSchema.node none DataType.object
    [("a", SWTZodSchema.node none DataType.string [])]

/-- A non-record schema with a declared name. -/
def exStrSchema : SWTZodSchema :=
  SWTZodSchema.node (some "q") DataType.string []

/-- A concrete body-field list used by the serialization witness. -/
def exBodyFields : List KeyTypeValue :=
  [{ key := "amount", type := DataType.number, value := "" },
   { key := "flag", type := DataType.boolean, value := "" },
   { key := "note", type := DataType.string, value := "" }]

/-- Two introspection objects whose route names collide under the
filename map: `a/b` and `a_b`. -/
def routeSlash : IntrospectionObject :=
  { name := "a/b", method := HttpMethod.get, path := "/a/b",
    schema := emptySchemaBlock }

/-- See `routeSlash`. -/
def routeUnderscore : IntrospectionObject :=
  { name := "a_b", method := HttpMethod.get, path := "/a_b",
    schema := emptySchemaBlock }

/-- A controller whose two registered methods compile to the same
`(GET, /api/x)` pair (the second path only differs by separator
placement). -/
def demoConflictController : ControllerDescriptor :=
  { basePath := "/api"
    methods :=
      [{ methodName := "first", httpMethod := HttpMethod.get, path := "/x",
         statusCode := none, paramBindings := [], schema := emptySchemaBlock },
       { methodName := "second", httpMethod := HttpMethod.get, path := "x/",
         statusCode := none, paramBindings := [], schema := emptySchemaBlock }] }

/-- A body binding (handler argument 1) carrying a string schema. -/
def exBinding : ParamBinding :=
  { argIndex := 1, source := BindSource.body, name := none,
    schema := some VSchema.vString }

/-- A request whose body is a number, failing `exBinding`'s schema. -/
def exRequest : Request :=
  { body := JValue.num 7, query := [], params := [], headers := [] }

/-- The validation failure `exBinding` produces on `exRequest`. -/
def exValidationError : ValidationError :=
  { location := "body", name := none, issues := "invalid input" }

instance : IsTotal ParamBinding (fun a b => a.argIndex ≤ b.argIndex) :=
  ⟨fun a b => Nat.le_total a.argIndex b.argIndex⟩

instance : IsTrans ParamBinding (fun a b => a.argIndex ≤ b.argIndex) :=
  ⟨fun _ _ _ h1 h2 => Nat.le_trans h1 h2⟩

end SWT

namespace SWT

/-- Claim C1 (counterexample): the claimed dummy-value table is wrong on the
`object` arm — the code's `default` switch arm returns the text
`object {}`, not `{}` — and on the `array` arm the code's literal is
`[1, 2, 3]` with spaces, not `[1,2,3]`. -/
theorem generateDummyValue_object_array_cex :
    generateDummyValue DataType.object ≠ "\x7b\x7d" ∧
    generateDummyValue DataType.array ≠ "[1,2,3]" := by
  constructor <;> decide

/-- Claim C1 (amended): the dummy-value mapping by field type is
string → `"lorem ipsum"`, number → `248`, boolean → `true`,
array → the text `[1, 2, 3]`, and object → the text `object {}`. -/
theorem generateDummyValue_table :
    generateDummyValue DataType.string = "\"lorem ipsum\"" ∧
    generateDummyValue DataType.number = "248" ∧
    generateDummyValue DataType.boolean = "true" ∧
    generateDummyValue DataType.array = "[1, 2, 3]" ∧
    generateDummyValue DataType.object = "object \x7b\x7d" :=
  ⟨rfl, rfl, rfl, rfl, rfl⟩

/-- Claim C2 (counterexample): the per-property expansion is not applied
whenever "the schema's root type is an object" — it requires the source
to hold exactly one schema. With two copies of the record schema
`{a: string}` (root type `object`), `mapSchemas` emits one field per
schema keyed `unknown`, not one field per declared property keyed `a`. -/
theorem mapSchemas_two_objects_cex :
    exObjSchema.type = DataType.object ∧
    exObjSchema.properties.map Prod.fst = ["a"] ∧
    (mapSchemas [exObjSchema, exObjSchema]).map (fun f => f.key)
      = ["unknown", "unknown"] ∧
    ("unknown" : String) ≠ "a" := by
  refine ⟨rfl, rfl, rfl, by decide⟩

/-- Claim C2 (amended): the per-property expansion (key = property name,
type = property's primitive kind, value = JSON-serialized sub-schema)
applies exactly when the schema sequence holds a single schema whose root
type is `object`; every other sequence — including a multi-schema
sequence of records — yields one SchemaField per schema, keyed by the
declared name with fallback `unknown`. -/
theorem mapSchemas_flattening :
    (∀ s : SWTZodSchema, s.type = DataType.object →
      mapSchemas [s] = s.properties.map (fun p =>
        { key := p.1, type := p.2.type, value := stringifySchema p.2 })) ∧
    (∀ l : List SWTZodSchema, (∀ s, l = [s] → s.type ≠ DataType.object) →
      mapSchemas l = l.map (fun sch =>
        { key := nameOrUnknown sch.name, type := sch.type,
          value := stringifySchema sch })) := by
  constructor
  · intro s h
    simp [mapSchemas, h]
  · intro l h
    match l with
    | [] => rfl
    | [s] =>
      have hs := h s rfl
      simp [mapSchemas, hs]
    | a :: b :: rest => rfl

/-- Witness for `mapSchemas_flattening`: both branches at concrete
schemas. -/
theorem mapSchemas_flattening_witness :
    mapSchemas [exObjSchema] = exObjSchema.properties.map (fun p =>
      { key := p.1, type := p.2.type, value := stringifySchema p.2 }) ∧
    mapSchemas [exStrSchema] = [exStrSchema].map (fun sch =>
      { key := nameOrUnknown sch.name, type := sch.type,
        value := stringifySchema sch }) := by
  refine ⟨mapSchemas_flattening.1 exObjSchema rfl,
          mapSchemas_flattening.2 [exStrSchema] ?_⟩
  intro s hs
  obtain ⟨h1, -⟩ := List.cons.inj hs
  subst h1
  decide

/-- Claim C6: the generator entrypoint performs exactly one file write
per fetched introspection object, and the filename of each write is the
route's `name` with every `/` turned into `_`, suffixed `.bru`. -/
theorem generateWrites_one_file_per_route (baseURL : String)
    (objs : List IntrospectionObject) :
    (generateWrites baseURL objs).length = objs.length ∧
    (generateWrites baseURL objs).map Prod.fst
      = objs.map (fun o => replaceSlashes o.name ++ ".bru") := by
  constructor
  · simp [generateWrites]
  · unfold generateWrites
    rw [List.map_map]
    conv_rhs => rw [← List.enum_map_snd objs, List.map_map]
    rfl

/-- Assignment `obj[k] = v` on an object not yet holding `k` appends the property. -/
theorem objAssign_not_mem (l : List (String × String)) (k v : String)
    (h : ∀ p ∈ l, p.1 ≠ k) : objAssign l k v = l ++ [(k, v)] := by
  unfold objAssign
  rw [if_neg]
  simp only [List.any_eq_true, decide_eq_true_eq, not_exists]
  intro p hp
  exact h p hp.1 hp.2

/-- The body-object loop over fields with pairwise-distinct keys stores
exactly one property per field, in field order, valued by the field's
dummy string. -/
theorem foldl_objAssign_append (kvs : List KeyTypeValue) :
    ∀ acc : List (String × String),
      (∀ kv ∈ kvs, ∀ p ∈ acc, p.1 ≠ kv.key) →
      (kvs.map KeyTypeValue.key).Nodup →
      kvs.foldl (fun a kv => objAssign a kv.key (generateDummyValue kv.type)) acc
        = acc ++ kvs.map (fun kv => (kv.key, generateDummyValue kv.type)) := by
  induction kvs with
  | nil => intro acc _ _; simp
  | cons kv rest ih =>
    intro acc hdisj hnodup
    have hnodup2 : (rest.map KeyTypeValue.key).Nodup :=
      (List.nodup_cons.mp (by simpa using hnodup)).2
    have hkv : kv.key ∉ rest.map KeyTypeValue.key :=
      (List.nodup_cons.mp (by simpa using hnodup)).1
    simp only [List.foldl_cons]
    rw [objAssign_not_mem _ _ _ (fun p hp => hdisj kv (List.mem_cons_self _ _) p hp)]
    rw [ih (acc ++ [(kv.key, generateDummyValue kv.type)]) ?_ hnodup2]
    · simp
    · intro kv2 hkv2 p hp
      rcases List.mem_append.mp hp with hp2 | hp2
      · exact hdisj kv2 (List.mem_cons_of_mem _ hkv2) p hp2
      · have hp3 : p = (kv.key, generateDummyValue kv.type) := by simpa using hp2
        subst hp3
        intro hcontra
        exact hkv (List.mem_map.mpr ⟨kv2, hkv2, hcontra.symm⟩)

/-- Value of `buildJsonObject` under pairwise-distinct field keys. -/
theorem buildJsonObject_eq_map (kvs : List KeyTypeValue)
    (h : (kvs.map KeyTypeValue.key).Nodup) :
    buildJsonObject kvs = kvs.map (fun kv => (kv.key, generateDummyValue kv.type)) := by
  have hfold := foldl_objAssign_append kvs []
    (by intro kv _ p hp; simp at hp) h
  simpa [buildJsonObject] using hfold

/-- Claim C9: in the generated `body:json` block every field's value is
the field's dummy string re-serialized as a JSON *string* token — the
entry for a field is `"key": "<escaped dummy>"`, so the number dummy
appears as `"248"`, the boolean dummy as `"true"`, and the string dummy
as `"\"lorem ipsum\""`, never as a bare JSON number, boolean, or plain
quoted string. -/
theorem bodyBlock_serializes_dummy_strings (kvs : List KeyTypeValue)
    (h1 : kvs ≠ []) (h2 : (kvs.map KeyTypeValue.key).Nodup) :
    bodyParamsBlock kvs =
      "body:json \x7b\n"
        ++ jsonStringify2 (kvs.map (fun kv => (kv.key, generateDummyValue kv.type)))
        ++ "\n\x7d\n" ∧
    jsonStringify2 (kvs.map (fun kv => (kv.key, generateDummyValue kv.type)))
      = "\x7b\n"
          ++ String.intercalate ",\n" (kvs.map (fun kv =>
              "  \"" ++ jsonEscape kv.key ++ "\": \""
                ++ jsonEscape (generateDummyValue kv.type) ++ "\""))
          ++ "\n\x7d" := by
  constructor
  · unfold bodyParamsBlock
    rw [if_pos (by simpa [List.length_pos] using h1),
        buildJsonObject_eq_map kvs h2]
  · unfold jsonStringify2
    rw [if_neg (by simp [h1]), List.map_map]
    rfl

/-- Witness for `bodyBlock_serializes_dummy_strings`: a concrete
number/boolean/string field list. -/
theorem bodyBlock_serialization_witness :
    bodyParamsBlock exBodyFields =
      "body:json \x7b\n"
        ++ jsonStringify2 (exBodyFields.map (fun kv => (kv.key, generateDummyValue kv.type)))
        ++ "\n\x7d\n" ∧
    jsonStringify2 (exBodyFields.map (fun kv => (kv.key, generateDummyValue kv.type)))
      = "\x7b\n"
          ++ String.intercalate ",\n" (exBodyFields.map (fun kv =>
              "  \"" ++ jsonEscape kv.key ++ "\": \""
                ++ jsonEscape (generateDummyValue kv.type) ++ "\""))
          ++ "\n\x7d" :=
  bodyBlock_serializes_dummy_strings exBodyFields (by decide) (by decide)

/-- Claim C10: the route-name-to-filename map is not injective — the
distinct route names `a/b` and `a_b` both map to `a_b.bru`, so the
generator writes both routes to the one file and the later write
overwrites the earlier: after both writes the directory holds that
single file with the second route's contents. -/
theorem getFilename_collision_overwrite :
    ("a/b" : String) ≠ "a_b" ∧
    (generateWrites "http://localhost:8787" [routeSlash, routeUnderscore]).map
      Prod.fst = ["a_b.bru", "a_b.bru"] ∧
    applyWrites (generateWrites "http://localhost:8787" [routeSlash, routeUnderscore])
      = [("a_b.bru",
          (mkBrunoRequest "http://localhost:8787" routeUnderscore 2).toString)] := by
  refine ⟨by decide, by decide, by decide⟩

/-- A conflict-free scan certifies that the compiled route list has no
duplicate `(httpMethod, fullPath)` pair. -/
theorem nodup_of_findConflict_none :
    ∀ l : List CompiledRoute, findConflict l = none → l.Nodup := by
  intro l
  induction l with
  | nil => intro _; exact List.nodup_nil
  | cons r rs ih =>
    intro h
    by_cases hm : r ∈ rs
    · rw [findConflict, if_pos hm] at h
      exact Option.noConfusion h
    · rw [findConflict, if_neg hm] at h
      exact List.nodup_cons.mpr ⟨hm, ih h⟩

/-- Claim C3: whenever two distinct registered methods compile to the
same `(httpMethod, fullPath)` pair, the build fails with `RouteConflict`
— no application object is produced at all, so the routes are neither
silently dropped nor merged and no traffic can be accepted. -/
theorem buildHonoApp_route_conflict (base : String)
    (reg : List ControllerDescriptor)
    (h : ¬ (compiledRoutes base reg).Nodup) :
    buildHonoApp base reg = Except.error BuildError.routeConflict := by
  cases hc : findConflict (compiledRoutes base reg) with
  | some r => simp [buildHonoApp, hc]
  | none => exact absurd (nodup_of_findConflict_none _ hc) h

/-- Witness for `buildHonoApp_route_conflict`: a controller with two
methods both compiling to `(GET, /api/x)`. -/
theorem buildHonoApp_route_conflict_witness :
    ¬ (compiledRoutes "/" [demoConflictController]).Nodup ∧
    buildHonoApp "/" [demoConflictController]
      = Except.error BuildError.routeConflict :=
  ⟨by decide, buildHonoApp_route_conflict "/" [demoConflictController] (by decide)⟩

/-- Claim C4: for every registry state, the introspection builder visits
controllers and methods in the route compiler's order and computes each
object's `path` with the same `fullPath` resolution, so the sequence of
introspected paths equals the sequence of compiled route paths. -/
theorem introspection_paths_match_routes (base : String)
    (reg : List ControllerDescriptor) :
    (buildIntrospection base reg).map IntrospectionObject.path
      = (compiledRoutes base reg).map CompiledRoute.fullPath := by
  induction reg with
  | nil => rfl
  | cons c rest ih =>
    simp only [buildIntrospection, introControllers, compiledRoutes,
      List.flatMap_cons, List.map_append, List.map_map] at ih ⊢
    rw [ih]
    rfl

/-- Claim C7: the introspection build is a pure read of the registry —
the registry it hands back after the walk is the registry it was given,
and re-running the build on that registry yields the identical output
sequence. -/
theorem introspection_pure_idempotent (base : String)
    (reg : List ControllerDescriptor) :
    (introControllers base reg).2 = reg ∧
    buildIntrospection base ((introControllers base reg).2)
      = buildIntrospection base reg := by
  have h : ∀ r : List ControllerDescriptor, (introControllers base r).2 = r := by
    intro r
    induction r with
    | nil => rfl
    | cons c rest ih => simp [introControllers, ih]
  exact ⟨h reg, by rw [h reg]⟩

/-- A failure heading the binder's scan is the failure the whole binding
pass reports. -/
theorem bindAll_error_of_firstFailure :
    ∀ (bs : List ParamBinding) (req : Request) (e : ValidationError),
      firstFailure bs req = some e → bindAll bs req = Except.error e := by
  intro bs req e
  induction bs with
  | nil => intro h; simp [firstFailure] at h
  | cons b rest ih =>
    intro h
    cases hb : bindOne b req with
    | error e2 =>
      simp only [firstFailure, hb, Option.some.injEq] at h
      subst h
      simp [bindAll, hb]
    | ok v =>
      simp only [firstFailure, hb] at h
      simp [bindAll, hb, ih h]

/-- Claim C5: the binder processes bindings in ascending `argIndex`
order; when any schema-carrying binding fails validation, the whole
request short-circuits into the structured validation-error response
built from the first failure in that order, and the handler — whatever
it is — is never invoked (the outcome is independent of the handler and
carries no handler output). -/
theorem validation_short_circuits (bindings : List ParamBinding)
    (req : Request) (e : ValidationError)
    (h : firstFailure (sortBindings bindings) req = some e) :
    List.Sorted (fun a b : ParamBinding => a.argIndex ≤ b.argIndex)
      (sortBindings bindings) ∧
    ∀ handler, runValidatedHandler bindings req handler
      = RequestOutcome.validationFailure e := by
  constructor
  · exact List.sorted_insertionSort _ bindings
  · intro handler
    unfold runValidatedHandler
    rw [bindAll_error_of_firstFailure _ _ _ h]

/-- Witness for `validation_short_circuits`: a body binding with a string
schema against a numeric body. -/
theorem validation_short_circuits_witness :
    firstFailure (sortBindings [exBinding]) exRequest = some exValidationError ∧
    runValidatedHandler [exBinding] exRequest (fun _ => JValue.nullVal)
      = RequestOutcome.validationFailure exValidationError :=
  ⟨rfl, (validation_short_circuits [exBinding] exRequest exValidationError rfl).2 _⟩

/-- Claim C8: the middleware returned by `createBearerAuthMiddleware n`
reads the expected token from the invoked request context's env —
`c.env n`, looked up at each invocation, never captured at
middleware-creation time — and hands it unmodified to the bearer-auth
check: its whole behaviour on a context `c` is the bearer check against
exactly `c.env n`. -/
theorem bearerAuth_reads_env_at_invocation (n : String) (c : HonoContext) :
    createBearerAuthMiddleware n c =
      (if c.authHeader = some ("Bearer " ++ c.env n) then MWResult.passed
       else MWResult.unauthorized
         (JValue.obj [("error", JValue.str "Unauthorized")])) := rfl

end SWT
